import Mathlib

/-!
Verification of the protocol subsystem of the open-agents bridge daemon.

The Go sources are shallowly embedded: every definition below mirrors a
function or type of the repository (file and line references are given in
the doc comments).  Strings carry Go `string` values, JSON-decoded dynamic
values (`interface{}` after `encoding/json.Unmarshal`) are carried by the
`JsonVal` inductive, and byte slices by `List UInt8`.  Stateful code is
embedded as explicit state-passing step functions; goroutine interleavings
relevant to the claims are represented by event traces.
-/

namespace OpenAgents

/-- Dynamic JSON value as produced by Go `encoding/json` decoding into
`interface{}`.  JSON numbers decode to `float64`; JSON-RPC ids are integers
or strings, and on the integer range at hand (`|n| < 2^53`) the
float64 decode/encode round trip is exact, so integer-valued numbers are
carried as `Int`. -/
inductive JsonVal where
  | null : JsonVal
  | bool (b : Bool) : JsonVal
  | num (n : Int) : JsonVal
  | str (s : String) : JsonVal
deriving DecidableEq, Repr

/-- `true` iff the dynamic value is a JSON string. -/
def JsonVal.isStr : JsonVal → Bool
  | .str _ => true
  | _ => false

/-- `true` iff the dynamic value is a JSON number. -/
def JsonVal.isNum : JsonVal → Bool
  | .num _ => true
  | _ => false

/-- Go `strings.HasPrefix` on rune lists. -/
def strStartsWith (s pre : String) : Bool :=
  pre.toList.isPrefixOf s.toList

/-- Helper for `strContains`: substring test on rune lists. -/
def listHasSub (s sub : List Char) : Bool :=
  sub.isPrefixOf s ||
    match s with
    | [] => false
    | _ :: t => listHasSub t sub

/-- Go `strings.Contains`. -/
def strContains (s sub : String) : Bool :=
  listHasSub s.toList sub.toList

/-- Lookup in a decoded JSON object (Go `m[key].(string)` with the
zero-value default `""` on a missing key or a non-string value). -/
def lookupStr (m : List (String × JsonVal)) (key : String) : String :=
  match m.lookup key with
  | some (.str s) => s
  | _ => ""

/-!
### Model of Go `path/filepath.Match` (unix, `Separator = '/'`)

The rule engine calls `filepath.Match` and drops its error
(`matched, _ := filepath.Match(...)`), so a malformed pattern counts as
no match.  The model below implements the documented grammar:
`*` matches any sequence of non-separator characters, `?` one
non-separator character, `[...]`/`[^...]` one character against ranges,
`\c` the literal character `c`; the pattern must consume the whole name.
-/

/-- Parse one character or `\`-escaped character of a character class.
Mirrors `getEsc` in `path/filepath/match.go`: fails on an empty chunk, a
leading `-` or `]`, a trailing backslash, or when nothing follows the
parsed character (the closing `]` is still owed). -/
def classGetEsc : List Char → Option (Char × List Char)
  | [] => none
  | '-' :: _ => none
  | ']' :: _ => none
  | '\\' :: rest =>
    match rest with
    | [] => none
    | c :: rest' => if rest' = [] then none else some (c, rest')
  | c :: rest => if rest = [] then none else some (c, rest)

/-- Parse the ranges of a character class up to the closing `]`.
Fuel-driven recursion; the fuel is an upper bound on the pattern length. -/
def parseClassRanges : Nat → List Char → Nat → Option (List (Char × Char) × List Char)
  | 0, _, _ => none
  | fuel + 1, p, nrange =>
    match p with
    | ']' :: rest =>
      if nrange > 0 then some ([], rest)
      else none
    | p =>
      match classGetEsc p with
      | none => none
      | some (lo, p1) =>
        let hiRes : Option (Char × List Char) :=
          match p1 with
          | '-' :: p1t => classGetEsc p1t
          | _ => some (lo, p1)
        match hiRes with
        | none => none
        | some (hi, p2) =>
          match parseClassRanges fuel p2 (nrange + 1) with
          | none => none
          | some (ranges, rest) => some ((lo, hi) :: ranges, rest)

/-- Parse a full character class body (after the opening `[`): optional
negation, at least one range, closing `]`.  Returns `none` on a malformed
class. -/
def parseClass (p : List Char) : Option (Bool × List (Char × Char) × List Char) :=
  let negp : Bool × List Char :=
    match p with
    | '^' :: rest => (true, rest)
    | _ => (false, p)
  match parseClassRanges (negp.2.length + 1) negp.2 0 with
  | none => none
  | some (ranges, rest) => some (negp.1, ranges, rest)

/-- One character against the ranges of a class. -/
def classMatches (ranges : List (Char × Char)) (c : Char) : Bool :=
  ranges.any (fun r => r.1.toNat ≤ c.toNat && c.toNat ≤ r.2.toNat)

/-- Core matcher; fuel bounds the recursion (pattern length + name length
suffices, every call shrinks their sum). -/
def goMatchAux : Nat → List Char → List Char → Bool
  | 0, _, _ => false
  | fuel + 1, p, n =>
    match p with
    | [] => n.isEmpty
    | '*' :: p' =>
      goMatchAux fuel p' n ||
        (match n with
         | [] => false
         | c :: n' => decide (c ≠ '/') && goMatchAux fuel ('*' :: p') n')
    | '?' :: p' =>
      (match n with
       | [] => false
       | c :: n' => decide (c ≠ '/') && goMatchAux fuel p' n')
    | '\\' :: p' =>
      (match p' with
       | [] => false
       | e :: p'' =>
         match n with
         | [] => false
         | c :: n' => decide (c = e) && goMatchAux fuel p'' n')
    | '[' :: p' =>
      (match parseClass p' with
       | none => false
       | some (neg, ranges, rest) =>
         match n with
         | [] => false
         | c :: n' => (classMatches ranges c != neg) && goMatchAux fuel rest n')
    | c :: p' =>
      (match n with
       | [] => false
       | d :: n' => decide (c = d) && goMatchAux fuel p' n')

/-- Model of `path/filepath.Match pattern name` with the error collapsed to
`false`, as every call site in the repository ignores the error. -/
def goMatch (pattern name : String) : Bool :=
  goMatchAux (pattern.toList.length + name.toList.length + 1) pattern.toList name.toList

/-- Go `strings.ReplaceAll(pattern, "**", "*")` (left-to-right,
non-overlapping), as used by the rule engine's fallback match. -/
def replaceDoubleStar : List Char → List Char
  | [] => []
  | [c] => [c]
  | c :: d :: rest =>
    if c = '*' && d = '*' then '*' :: replaceDoubleStar rest
    else c :: replaceDoubleStar (d :: rest)

/-- String-level wrapper for `replaceDoubleStar`. -/
def replaceDoubleStarStr (s : String) : String :=
  String.mk (replaceDoubleStar s.toList)

/-!
### Rule engine (`internal/rules`, `Engine.Evaluate` / `Engine.matchRule`)
-/

/-- `config.AutoApprovalRule`. -/
structure AutoApprovalRule where
  id : String
  pattern : String
  tool : String
  action : String
deriving DecidableEq, Repr

/-- `Engine.matchRule` (rules engine source, lines 69–98): tool wildcard
check, pattern wildcard check, glob on the path for `fs_`-prefixed tools
(with a `**`→`*` fallback when the pattern contains `**`), substring or
prefix on the command for `execute_bash`. -/
def matchRule (rule : AutoApprovalRule) (tool path command : String) : Bool :=
  if rule.tool ≠ "" && rule.tool ≠ "*" && rule.tool ≠ tool then
    false
  else if rule.pattern = "" || rule.pattern = "*" then
    true
  else
    (strStartsWith tool "fs_" && path ≠ "" &&
      (goMatch rule.pattern path ||
        (strContains rule.pattern "**" &&
          goMatch (replaceDoubleStarStr rule.pattern) path))) ||
    (tool = "execute_bash" && command ≠ "" &&
      (strContains command rule.pattern || strStartsWith command rule.pattern))

/-- `Engine.Evaluate` (rules engine source, lines 60–67): first matching
rule wins; `("ask", "")` when none matches. -/
def evaluateRules (rules : List AutoApprovalRule) (tool path command : String) :
    String × String :=
  match rules with
  | [] => ("ask", "")
  | rule :: rest =>
    if matchRule rule tool path command then (rule.action, rule.id)
    else evaluateRules rest tool path command

/-- The rule-matching predicate as the claim words it: tool `""`/`*`
matches any tool, pattern `""`/`*` matches anything, for `fs_`-prefixed
tools the pattern is glob-matched against the path with a fallback in
which every `**` is replaced by `*`, for `execute_bash` the pattern
matches as substring or prefix of the command — with no condition on the
path or command being non-empty. -/
def claimMatchRule (rule : AutoApprovalRule) (tool path command : String) : Bool :=
  if rule.tool ≠ "" && rule.tool ≠ "*" && rule.tool ≠ tool then
    false
  else if rule.pattern = "" || rule.pattern = "*" then
    true
  else
    (strStartsWith tool "fs_" &&
      (goMatch rule.pattern path ||
        goMatch (replaceDoubleStarStr rule.pattern) path)) ||
    (tool = "execute_bash" &&
      (strContains command rule.pattern || strStartsWith command rule.pattern))

/-- First-match evaluation over `claimMatchRule`, as the claim states it. -/
def claimEvaluateRules (rules : List AutoApprovalRule) (tool path command : String) :
    String × String :=
  match rules with
  | [] => ("ask", "")
  | rule :: rest =>
    if claimMatchRule rule tool path command then (rule.action, rule.id)
    else claimEvaluateRules rest tool path command

/-!
### Unified message model (`internal/protocol`, types used by `acp.go`)

The message/type declarations live in the protocol package's types file;
the variants below are reconstructed from their use sites in `acp.go` and
the bridge router.  `Meta` (a free map always carrying the protocol name)
is not relevant to any claim and is elided.
-/

/-- `protocol.MessageType`. -/
inductive MessageType where
  | content
  | thought
  | toolCall
  | permission
  | status
  | plan
  | usage
  | error
  | cancel
deriving DecidableEq, Repr

/-- `protocol.PermissionRequest`; the `ID` field is `interface{}` in Go
(`acp.go` stores the raw decoded JSON-RPC id in it). -/
structure PermissionRequest where
  id : JsonVal
  toolName : String
  toolInput : List (String × JsonVal)
  description : String
  risk : String
  options : List String
deriving DecidableEq, Repr

/-- `protocol.PermissionResponse`; `ID` is `interface{}` (echoes the
request id verbatim). -/
structure PermissionResponse where
  id : JsonVal
  optionId : String
deriving DecidableEq, Repr

/-- `protocol.ToolCall` (fields used by `acp.go`). -/
structure ToolCall where
  id : String
  name : String
  status : String
  result : Option JsonVal
deriving DecidableEq, Repr

/-- `protocol.UsageStats` (fields used by `acp.go`; the counters are
non-negative token estimates). -/
structure UsageStats where
  inputTokens : Nat
  outputTokens : Nat
  cacheCreation : Nat
  cacheRead : Nat
  contextSize : Nat
deriving DecidableEq, Repr

/-- The dynamic `Content interface{}` of a `protocol.Message`, as a sum of
the payload types the sources actually store there.  A Go type assertion
`msg.Content.(string)` succeeds only on the `str` variant (an
`AgentStatus` value is a distinct named type and is carried by
`statusVal`). -/
inductive MessageContent where
  | str (s : String)
  | statusVal (s : String)
  | permRequest (p : PermissionRequest)
  | permResponse (p : PermissionResponse)
  | toolCallVal (t : ToolCall)
  | usageVal (u : UsageStats)
deriving DecidableEq, Repr

/-- `protocol.Message` (`Meta` elided). -/
structure ProtocolMessage where
  type : MessageType
  content : MessageContent
deriving DecidableEq, Repr

/-!
### ACP adapter (`internal/protocol/acp.go`, first listed revision)
-/

/-- `estimateTokens` (`acp.go` lines 1035–1041): `int64((len(text)+3)/4)`
with an explicit zero case; `len` is the UTF-8 byte length. -/
def estimateTokens (text : String) : Nat :=
  if text.utf8ByteSize = 0 then 0 else (text.utf8ByteSize + 3) / 4

/-- The dangerous-command substrings of `containsDangerousCommand`
(`acp.go` lines 601–609). -/
def dangerousCommands : List String :=
  ["rm ", "sudo ", "chmod ", "chown ", "mkfs", "dd ", "> /dev/", "shutdown", "reboot"]

/-- `containsDangerousCommand` (`acp.go` lines 601–609). -/
def containsDangerousCommand (cmd : String) : Bool :=
  dangerousCommands.any (fun d => strContains cmd d)

/-- One element of the decoded `options` array of a
`session/request_permission` request: an object carrying an `optionId`
string, an object without one, a bare string, or any other JSON value. -/
inductive RawOption where
  | objWithId (optionId : String)
  | objOther
  | plainStr (s : String)
  | otherVal
deriving DecidableEq, Repr

/-- The option-id extraction loop of `handlePermissionRequest`
(`acp.go` lines 556–567): object `optionId` fields and bare strings are
kept, everything else is skipped. -/
def extractOptionIds (opts : List RawOption) : List String :=
  opts.filterMap (fun o =>
    match o with
    | .objWithId s => some s
    | .plainStr s => some s
    | _ => none)

/-- The decoded fields of a `session/request_permission` request that
`handlePermissionRequest` reads: the nested `toolCall` object (missing
string fields decode to `""` via Go type-assertion defaults) and the
`options` array. -/
structure ACPPermissionParams where
  toolCallId : String
  title : String
  rawInput : List (String × JsonVal)
  options : List RawOption
deriving DecidableEq, Repr

/-- `handlePermissionRequest` (`acp.go` lines 535–599): preserves the raw
JSON-RPC `id` (falling back to the `toolCallId` string when the request
has no id), classifies risk `high` when the title contains a dangerous
substring, and emits the permission request. -/
def acpHandlePermissionRequest (reqId : Option JsonVal) (p : ACPPermissionParams) :
    PermissionRequest :=
  let risk := if p.title ≠ "" && containsDangerousCommand p.title then "high" else "medium"
  let id :=
    match reqId with
    | some v => v
    | none => JsonVal.str p.toolCallId
  { id := id
    toolName := p.title
    toolInput := p.rawInput
    description := p.title
    risk := risk
    options := extractOptionIds p.options }

/-- The permission-result JSON-RPC line built by `SendMessage`'s
`MessageTypePermission` case (`acp.go` lines 202–223):
`{"jsonrpc":"2.0","id":<perm.ID>,"result":{"outcome":{"optionId":...,
"outcome":"selected"}}}`.  The `id` field carries the dynamic value
verbatim. -/
structure PermissionResultLine where
  jsonrpc : String
  id : JsonVal
  outcomeOptionId : String
  outcomeKind : String
deriving DecidableEq, Repr

/-- Builds the permission-result line from a `PermissionResponse`
(`acp.go` lines 211–220). -/
def buildPermissionResult (p : PermissionResponse) : PermissionResultLine :=
  { jsonrpc := "2.0", id := p.id, outcomeOptionId := p.optionId, outcomeKind := "selected" }

/-- Mutable adapter state relevant to the claims: the atomic `connected`
flag, the recorded `sessionID`, the monotonic request-id counter and the
two estimated token counters (zero on a fresh adapter). -/
structure ACPState where
  connected : Bool
  sessionId : String
  requestId : Int
  inputTokens : Nat
  outputTokens : Nat
deriving DecidableEq, Repr

/-- One outbound JSON-RPC line produced by `SendMessage`. -/
inductive ACPOutLine where
  | promptRequest (id : Int) (sessionId : String) (text : String)
  | permissionResult (line : PermissionResultLine)
  | cancelRequest (id : Int) (sessionId : String) (reason : MessageContent)
deriving DecidableEq, Repr

/-- `ACPAdapter.SendMessage` (`acp.go` lines 162–243): rejects when not
connected; `content` sends `session/prompt` with a fresh numeric id and
adds the input-token estimate; `permission` sends the result line keyed by
the preserved request id; `cancel` sends `session/cancel`; all other
message types return nil with no output. -/
def acpSendMessage (st : ACPState) (msg : ProtocolMessage) :
    Except String (ACPState × List ACPOutLine) :=
  if !st.connected then .error "not connected"
  else
    match msg.type with
    | .content =>
      match msg.content with
      | .str text =>
        .ok ({ st with
                inputTokens := st.inputTokens + estimateTokens text
                requestId := st.requestId + 1 },
             [.promptRequest (st.requestId + 1) st.sessionId text])
      | _ => .error "invalid content type"
    | .permission =>
      match msg.content with
      | .permResponse p => .ok (st, [.permissionResult (buildPermissionResult p)])
      | _ => .error "invalid permission response type"
    | .cancel =>
      .ok ({ st with requestId := st.requestId + 1 },
           [.cancelRequest (st.requestId + 1) st.sessionId msg.content])
    | _ => .ok (st, [])

/-- The decoded `update` object of a `session/update` notification as
`handleSessionUpdate` reads it: the `sessionUpdate` discriminator,
the `content` object's `text` (absent when `content` is not an object;
a missing `text` field decodes to `""`), and the tool-call fields with
their fallbacks. -/
structure SessionUpdateObj where
  sessionUpdate : String
  contentText : Option String
  toolCallId : String
  idField : String
  title : String
  nameField : String
  statusField : String
  result : Option JsonVal
deriving DecidableEq, Repr

/-- `handleSessionUpdate` (`acp.go` lines 398–531): chunk updates add the
output-token estimate and emit content/thought; tool-call updates emit
tool calls; `end_turn` emits a `status=idle` message followed by a usage
snapshot whose context size is the sum of the two counters. -/
def acpHandleSessionUpdate (st : ACPState) (u : SessionUpdateObj) :
    ACPState × List ProtocolMessage :=
  if u.sessionUpdate = "agent_message_chunk" then
    match u.contentText with
    | none => (st, [])
    | some t =>
      ({ st with outputTokens := st.outputTokens + estimateTokens t },
       [⟨.content, .str t⟩])
  else if u.sessionUpdate = "agent_thought_chunk" then
    match u.contentText with
    | none => (st, [])
    | some t =>
      ({ st with outputTokens := st.outputTokens + estimateTokens t },
       [⟨.thought, .str t⟩])
  else if u.sessionUpdate = "tool_call" then
    let tid := if u.toolCallId = "" then u.idField else u.toolCallId
    let ttitle := if u.title = "" then u.nameField else u.title
    let tstatus := if u.statusField = "" then "pending" else u.statusField
    (st, [⟨.toolCall, .toolCallVal ⟨tid, ttitle, tstatus, none⟩⟩])
  else if u.sessionUpdate = "tool_call_update" then
    let tid := if u.toolCallId = "" then u.idField else u.toolCallId
    (st, [⟨.toolCall, .toolCallVal ⟨tid, "", u.statusField, u.result⟩⟩])
  else if u.sessionUpdate = "end_turn" then
    (st,
     [⟨.status, .statusVal "idle"⟩,
      ⟨.usage, .usageVal
        ⟨st.inputTokens, st.outputTokens, 0, 0, st.inputTokens + st.outputTokens⟩⟩])
  else (st, [])

/-- Events affecting the adapter's token counters within one session:
a successful `SendMessage` of a content prompt, an inbound
`session/update`, or any other inbound traffic (file and terminal
callbacks, responses), which never touches the counters. -/
inductive ACPEvent where
  | promptSent (text : String)
  | updateReceived (u : SessionUpdateObj)
  | otherInbound
deriving DecidableEq, Repr

/-- State transition of one event (emitted messages are dropped; only the
counter state is tracked across the trace). -/
def acpStep (st : ACPState) : ACPEvent → ACPState
  | .promptSent text =>
    match acpSendMessage st ⟨.content, .str text⟩ with
    | .ok (st', _) => st'
    | .error _ => st
  | .updateReceived u => (acpHandleSessionUpdate st u).1
  | .otherInbound => st

/-- Run a trace of events. -/
def acpRun (st : ACPState) (events : List ACPEvent) : ACPState :=
  events.foldl acpStep st

/-- Adapter state right after a successful `Connect`: connected, counters
zero. -/
def acpConnectedInit : ACPState :=
  { connected := true, sessionId := "", requestId := 0, inputTokens := 0, outputTokens := 0 }

/-- Sum of the input-token estimates of the prompts in a trace. -/
def promptTokens : List ACPEvent → Nat
  | [] => 0
  | .promptSent t :: es => estimateTokens t + promptTokens es
  | _ :: es => promptTokens es

/-- `true` iff a session update is a message or thought chunk. -/
def isChunkUpdate (u : SessionUpdateObj) : Bool :=
  u.sessionUpdate = "agent_message_chunk" || u.sessionUpdate = "agent_thought_chunk"

/-- Output-token contribution of a single session update: the estimate of
the chunk text for message/thought chunks that carry a content object,
zero otherwise. -/
def chunkContribution (u : SessionUpdateObj) : Nat :=
  if isChunkUpdate u then
    match u.contentText with
    | some t => estimateTokens t
    | none => 0
  else 0

/-- Sum of the output-token estimates of the chunk texts in a trace. -/
def chunkTokens : List ACPEvent → Nat
  | [] => 0
  | .updateReceived u :: es => chunkContribution u + chunkTokens es
  | _ :: es => chunkTokens es

/-!
### PTY adapter (`internal/protocol/pty.go`)
-/

/-- PTY adapter state relevant to the claims: the atomic `connected` flag
and whether the PTY master handle `ptmx` is nil (it is nil until `Connect`
assigns it and is never reset to nil). -/
structure PTYState where
  connected : Bool
  ptmxNil : Bool
deriving DecidableEq, Repr

/-- `PTYAdapter.IsConnected` (`pty.go` lines 128–130). -/
def ptyIsConnected (st : PTYState) : Bool := st.connected

/-- Result of `PTYAdapter.SendMessage`: either the function returns `nil`
without writing, or it writes the payload to the PTY master and returns
that write's error value. -/
inductive PTYSendOutcome where
  | retNil
  | write (payload : String)
deriving DecidableEq, Repr

/-- `PTYAdapter.SendMessage` (`pty.go` lines 132–153): non-content
messages, non-string content and a nil `ptmx` all return `nil`; there is
no check of the `connected` flag. -/
def ptySendMessage (st : PTYState) (msg : ProtocolMessage) : PTYSendOutcome :=
  if msg.type ≠ .content then .retNil
  else
    match msg.content with
    | .str content => if st.ptmxNil then .retNil else .write (content ++ "\n")
    | _ => .retNil

/-!
### Child environment construction (`acp.go` `Connect` / `pty.go` `Connect`)

Both adapters build the child environment as a `[]string` of `"k=v"`
entries: the parent environment, then `config.Env`, then `config.CustomEnv`.
The ACP adapter treats an empty `CustomEnv` value as *unset* by filtering
out every entry with prefix `k=`; the PTY adapter appends `k=v` entries
unconditionally.  Go map iteration order is modeled by list order (the
claims' instances are order-independent).
-/

/-- One `"k=v"` environment entry. -/
def envEntry (kv : String × String) : String := kv.1 ++ "=" ++ kv.2

/-- The `CustomEnv` loop of `ACPAdapter.Connect` (`acp.go` lines 83–97):
an empty value removes every entry with prefix `k=`, a non-empty value
appends `k=v`. -/
def acpApplyCustomEnv (base : List String) (custom : List (String × String)) :
    List String :=
  custom.foldl
    (fun acc kv =>
      if kv.2 = "" then acc.filter (fun e => !strStartsWith e (kv.1 ++ "="))
      else acc ++ [envEntry kv])
    base

/-- The full environment built by `ACPAdapter.Connect` (`acp.go`
lines 76–97). -/
def acpMergeEnv (parent : List String) (env custom : List (String × String)) :
    List String :=
  acpApplyCustomEnv (parent ++ env.map envEntry) custom

/-- The full environment built by `PTYAdapter.Connect` (`pty.go`
lines 44–52): both `Env` and `CustomEnv` are appended as `k=v` entries,
with no removal for empty values. -/
def ptyMergeEnv (parent : List String) (env custom : List (String × String)) :
    List String :=
  parent ++ env.map envEntry ++ custom.map envEntry

/-!
### Permission handler and bridge router (`internal/permission/handler.go`,
bridge source `Bridge.Start`)
-/

/-- `permission.Request` (`handler.go` lines 9–18), with `Detail` as a
decoded JSON object. -/
structure PermRequest where
  id : String
  sessionId : String
  deviceId : String
  permissionType : String
  description : String
  detail : List (String × JsonVal)
  risk : String
  timeoutSecs : Int
deriving DecidableEq, Repr

/-- `permission.Response` (`handler.go` lines 21–24). -/
structure PermResponse where
  id : String
  approved : Bool
deriving DecidableEq, Repr

/-- Observable effect of the bridge's `OnRequest` handler: resolving the
pending entry through `permHandler.Resolve`, or sending a frame of the
given type on the WebSocket. -/
inductive BridgeEffect where
  | resolve (resp : PermResponse)
  | sendFrame (frameType : String)
deriving DecidableEq, Repr

/-- The `permHandler.OnRequest` callback installed by `Bridge.Start`
(bridge source lines 489–523): extract `path`/`command` from the request
detail, evaluate the rules, short-circuit `auto-approve`/`deny` by
resolving immediately, otherwise forward a `permission:request` frame. -/
def bridgeOnRequest (rules : List AutoApprovalRule) (req : PermRequest) :
    List BridgeEffect :=
  let path := lookupStr req.detail "path"
  let command := lookupStr req.detail "command"
  let ar := evaluateRules rules req.permissionType path command
  if ar.1 = "auto-approve" then [.resolve ⟨req.id, true⟩]
  else if ar.1 = "deny" then [.resolve ⟨req.id, false⟩]
  else [.sendFrame "permission:request"]

/-- Insertion into the pending-id table (Go map insert). -/
def insertPending (pending : List String) (id : String) : List String :=
  if id ∈ pending then pending else id :: pending

/-- Deletion from the pending-id table (Go map delete). -/
def removePending (pending : List String) (id : String) : List String :=
  pending.filter (fun x => x ≠ id)

/-- `Handler.Submit` (`handler.go` lines 45–72) composed with the bridge's
`OnRequest` callback: the pending entry is registered before the callback
runs; when the callback resolves the request's own id the one-shot channel
fires, `Submit` returns and the deferred delete removes the entry; when it
only forwards, `Submit` stays blocked and the entry remains pending. -/
def handlerSubmit (rules : List AutoApprovalRule) (pending : List String)
    (req : PermRequest) : List String × List BridgeEffect :=
  let p1 := insertPending pending req.id
  let effs := bridgeOnRequest rules req
  if effs.any (fun e =>
      match e with
      | .resolve r => r.id = req.id
      | _ => false) then
    (removePending p1 req.id, effs)
  else
    (p1, effs)

/-- The session-output callback installed by `Bridge.Start` (bridge source
lines 526–650), projected to the wire frame types it sends: each adapter
message is translated one-to-one; a `permission` message is forwarded as a
`permission:request` frame with no rule evaluation and no pending-entry
registration; unknown types become `session:output` only for PTY. -/
def bridgeOutputFrames (protocolName : String) (msg : ProtocolMessage) :
    List String :=
  match msg.type with
  | .content => ["chat:response"]
  | .thought => ["chat:thought"]
  | .toolCall => ["tool:call"]
  | .permission => ["permission:request"]
  | .status => ["agent:status"]
  | .plan => ["agent:plan"]
  | .error => ["session:error"]
  | _ => if protocolName = "pty" then ["session:output"] else []

/-!
### Terminal subsystem (`acp.go` lines 705–956)

The terminal handlers run on the JSON-RPC reader; a handler that blocks on
a terminal's completion signal is modeled by parking the request in a
blocked list and answering it at the `complete` event (the close of
`doneChan` by `executeTerminalCommand`).
-/

/-- `terminalState` (`acp.go` lines 21–28) plus the `outputLimit` argument
captured by the `executeTerminalCommand` goroutine at creation. -/
structure TermState where
  output : List UInt8
  exitCode : Int
  signalName : String
  truncated : Bool
  done : Bool
  limitParam : Nat
deriving DecidableEq, Repr

/-- Overwrite a key in the terminal map. -/
def setTerm (m : List (String × TermState)) (k : String) (v : TermState) :
    List (String × TermState) :=
  (k, v) :: m.filter (fun p => p.1 ≠ k)

/-- Delete a key from the terminal map. -/
def delTerm (m : List (String × TermState)) (k : String) :
    List (String × TermState) :=
  m.filter (fun p => p.1 ≠ k)

/-- ACP adapter terminal bookkeeping: the id-indexed state map and the
requests currently blocked on a completion signal. -/
structure TermMachine where
  terminals : List (String × TermState)
  blockedOutput : List (JsonVal × String)
  blockedWait : List (JsonVal × String)
deriving DecidableEq, Repr

/-- JSON-RPC responses sent by the terminal handlers. -/
inductive TermResponse where
  | createResult (reqId : JsonVal) (terminalId : String)
  | exitResult (reqId : JsonVal) (exitCode : Int)
  | outputResult (reqId : JsonVal) (output : List UInt8) (truncated : Bool) (exitCode : Int)
  | emptyResult (reqId : JsonVal)
  | rpcError (reqId : JsonVal) (code : Int) (message : String)
deriving DecidableEq, Repr

/-- Terminal subsystem events: an inbound `terminal/create` (`termId` is
the freshly formatted `term_<unix-nanos>` string), the completion of the
spawned shell command with its raw combined output and exit code, the
other three inbound requests, and the 30-second garbage collection. -/
inductive TermEvent where
  | create (reqId : JsonVal) (termId : String) (limit : Option Nat)
  | complete (termId : String) (raw : List UInt8) (exitCode : Int)
  | outputReq (reqId : JsonVal) (termId : String)
  | waitReq (reqId : JsonVal) (termId : String)
  | release (reqId : JsonVal) (termId : String)
  | gcExpire (termId : String)
deriving DecidableEq, Repr

/-- One step of the terminal subsystem, mirroring
`handleTerminalCreate` (705–765), `executeTerminalCommand` (768–817),
`handleTerminalWaitForExit` (820–869), `handleTerminalOutputRequest`
(872–925) and `handleTerminalRelease` (928–956):

* `create` registers a fresh state and answers immediately with the
  terminal id (the shell command is launched asynchronously);
* `complete` truncates the raw output at the stored limit, records the
  exit code, marks the state done and answers every request blocked on
  this terminal; if the state was released meanwhile, nothing happens
  (and blocked requests stay blocked, as in the Go code where `doneChan`
  is then never closed);
* `outputReq`/`waitReq` answer `-32602` for an unknown id, block until
  completion otherwise, then answer from the stored state;
* `release` deletes the state and answers with an empty result;
* `gcExpire` deletes the state 30 s after completion. -/
def termStep (m : TermMachine) : TermEvent → TermMachine × List TermResponse
  | .create reqId termId limit =>
    let lim := limit.getD 32000
    ({ m with terminals := setTerm m.terminals termId ⟨[], 0, "", false, false, lim⟩ },
     [.createResult reqId termId])
  | .complete termId raw code =>
    match m.terminals.lookup termId with
    | none => (m, [])
    | some ts =>
      let trunc := decide (raw.length > ts.limitParam)
      let out := raw.take ts.limitParam
      let ts' := { ts with output := out, exitCode := code, truncated := trunc, done := true }
      let waits := m.blockedWait.filter (fun p => p.2 = termId)
      let outs := m.blockedOutput.filter (fun p => p.2 = termId)
      ({ terminals := setTerm m.terminals termId ts'
         blockedOutput := m.blockedOutput.filter (fun p => p.2 ≠ termId)
         blockedWait := m.blockedWait.filter (fun p => p.2 ≠ termId) },
       waits.map (fun p => .exitResult p.1 code) ++
         outs.map (fun p => .outputResult p.1 out trunc code))
  | .outputReq reqId termId =>
    match m.terminals.lookup termId with
    | none => (m, [.rpcError reqId (-32602) "terminal not found"])
    | some ts =>
      if ts.done then (m, [.outputResult reqId ts.output ts.truncated ts.exitCode])
      else ({ m with blockedOutput := m.blockedOutput ++ [(reqId, termId)] }, [])
  | .waitReq reqId termId =>
    match m.terminals.lookup termId with
    | none => (m, [.rpcError reqId (-32602) "terminal not found"])
    | some ts =>
      if ts.done then (m, [.exitResult reqId ts.exitCode])
      else ({ m with blockedWait := m.blockedWait ++ [(reqId, termId)] }, [])
  | .release reqId termId =>
    ({ m with terminals := delTerm m.terminals termId }, [.emptyResult reqId])
  | .gcExpire termId =>
    ({ m with terminals := delTerm m.terminals termId }, [])

/-- Run a sequence of terminal events, discarding responses. -/
def termRun (m : TermMachine) (events : List TermEvent) : TermMachine :=
  events.foldl (fun m e => (termStep m e).1) m

/-- `true` iff the event is a `terminal/create` for the given id. -/
def isCreateOf (t : String) : TermEvent → Bool
  | .create _ t' _ => t' = t
  | _ => false

/-!
### Protocol manager ACP probe (`internal/protocol/manager.go`)
-/

/-- A callback value held in `Manager.callback` or installed on an
adapter: the nil callback, the subscriber's callback installed before
`Connect`, or the interception closure created inside `tryACP` that sends
on the `initialized` channel. -/
inductive CallbackVal where
  | noCb
  | userCb
  | initInterceptor
deriving DecidableEq, Repr

/-- The callback cells after `tryACP`'s wiring. -/
structure ProbeWiring where
  managerCb : CallbackVal
  adapterCb : CallbackVal
deriving DecidableEq, Repr

/-- The wiring performed by `Manager.tryACP` (`manager.go` lines 37–58) in
program order: `adapter.Subscribe(m.callback)` (line 39) installs the
value `m.callback` holds at that moment on the adapter; after
`adapter.Connect` the interception closure is assigned to the `m.callback`
field (line 51) but is never installed on the adapter. -/
def tryACPWiring (mcb : CallbackVal) : ProbeWiring :=
  let adapterCb := mcb
  let managerCb := CallbackVal.initInterceptor
  { managerCb := managerCb, adapterCb := adapterCb }

/-- Only the interception closure sends on the `initialized` channel
(`manager.go` lines 51–58); the adapter delivers inbound messages to its
own installed callback (`acp.go` `emitMessage`, lines 1006–1010). -/
def signalsInitialized : CallbackVal → Bool
  | .initInterceptor => true
  | _ => false

/-- Protocol reported by `Manager.Connect` (`manager.go` lines 22–34):
"acp" exactly when the ACP spawn succeeded and a status message delivered
through the probing adapter's callback signals `initialized` within the
3-second window; on timeout the ACP adapter is disconnected and PTY is
used. -/
def managerConnectProtocol (mcb : CallbackVal) (acpSpawnOk statusWithin3s : Bool) :
    String :=
  let w := tryACPWiring mcb
  if acpSpawnOk && (statusWithin3s && signalsInitialized w.adapterCb) then "acp"
  else "pty"

/-!
### Session manager (`internal/session/manager.go`)
-/

/-- `session.Session` (fields relevant to the index invariant). -/
structure SessionRec where
  id : String
  cliType : String
  workDir : String
  permissionMode : String
  status : String
deriving DecidableEq, Repr

/-- Operations on the session index.  `create` carries the final session
id (`CreateWithIDAndSize` generates a fresh uuid for an empty input id)
and whether `protocolMgr.Connect` succeeded; `stop` is `Manager.Stop`,
which marks the record completed and deletes the index entry in the same
critical section; `stopAll` is `Manager.StopAll`. -/
inductive SessOp where
  | create (id cliType workDir permissionMode : String) (connectOk : Bool)
  | stop (id : String)
  | stopAll
deriving DecidableEq, Repr

/-- One step of the session index (`CreateWithIDAndSize` lines 48–116,
`Stop` lines 215–231, `StopAll` lines 233–243): a session is inserted only
after a successful connect, always with status `"active"`; `Stop` removes
the entry (the removed record is simultaneously marked `"completed"`, and
is from that point unreachable through the index). -/
def sessStep (m : List (String × SessionRec)) : SessOp → List (String × SessionRec)
  | .create id cliType workDir pm ok =>
    if ok then
      let pm' := if pm = "" then "default" else pm
      (id, ⟨id, cliType, workDir, pm', "active"⟩) :: m.filter (fun p => p.1 ≠ id)
    else m
  | .stop id => m.filter (fun p => p.1 ≠ id)
  | .stopAll => []

/-- Run a sequence of operations from the fresh manager (`NewManager`,
empty index). -/
def sessRun (ops : List SessOp) : List (String × SessionRec) :=
  ops.foldl sessStep []

/-- `Manager.Get` (lines 198–202): read-locked map lookup. -/
def sessGet (m : List (String × SessionRec)) (id : String) : Option SessionRec :=
  m.lookup id

/-!
## Helper lemmas
-/

/-- A successful association-list lookup yields a member. -/
theorem lookup_mem_pair {β : Type} (m : List (String × β)) (k : String) (v : β)
    (h : m.lookup k = some v) : (k, v) ∈ m := by
  induction m with
  | nil => simp [List.lookup] at h
  | cons hd tl ih =>
    rw [show hd = (hd.1, hd.2) from rfl] at h ⊢
    rw [List.lookup_cons] at h
    by_cases hk : k = hd.1
    · subst hk
      simp at h
      subst h
      exact List.mem_cons_self _ _
    · have hbeq : (k == hd.1) = false := beq_false_of_ne hk
      rw [hbeq] at h
      exact List.mem_cons_of_mem _ (ih h)

/-- Looking up a key in a list filtered on that key being different finds
nothing. -/
theorem lookup_filter_ne_none {β : Type} (m : List (String × β)) (k : String) :
    (m.filter (fun p => p.1 ≠ k)).lookup k = none := by
  induction m with
  | nil => rfl
  | cons hd tl ih =>
    rw [List.filter_cons]
    by_cases h : hd.1 = k
    · have hc : ¬((fun p => decide (p.1 ≠ k)) hd = true) := by simp [h]
      rw [if_neg hc]
      exact ih
    · have hc : (fun p => decide (p.1 ≠ k)) hd = true := by simp [h]
      rw [if_pos hc]
      rw [show hd = (hd.1, hd.2) from rfl, List.lookup_cons]
      have hbeq : (k == hd.1) = false := beq_false_of_ne (Ne.symm h)
      rw [hbeq]
      exact ih

/-!
## Claim C1 — JSON-RPC id fidelity of permission results
-/

/-- C1.  Id fidelity: for an inbound `session/request_permission` whose
JSON-RPC id is an integer or a string, the permission request emitted by
`handlePermissionRequest` carries that id unchanged, and the
permission-result line later built by `SendMessage` for that request
carries exactly the same dynamic id value — same JSON type, same value,
never coerced to a string. -/
theorem acp_permission_id_roundtrip (v : JsonVal) (p : ACPPermissionParams)
    (opt : String) (st : ACPState)
    (hconn : st.connected = true)
    (_hv : v.isNum = true ∨ v.isStr = true) :
    acpSendMessage st
        ⟨.permission, .permResponse ⟨(acpHandlePermissionRequest (some v) p).id, opt⟩⟩
      = .ok (st, [.permissionResult ⟨"2.0", v, opt, "selected"⟩]) := by
  simp [acpSendMessage, hconn, acpHandlePermissionRequest, buildPermissionResult]

/-- Witness for C1 at the claim's concrete ids `42` and `"abc"`. -/
theorem acp_permission_id_roundtrip_witness :
    acpSendMessage acpConnectedInit
        ⟨.permission, .permResponse
          ⟨(acpHandlePermissionRequest (some (.num 42)) ⟨"tc1", "Run tests", [], []⟩).id,
           "allow_once"⟩⟩
      = .ok (acpConnectedInit, [.permissionResult ⟨"2.0", .num 42, "allow_once", "selected"⟩]) ∧
    acpSendMessage acpConnectedInit
        ⟨.permission, .permResponse
          ⟨(acpHandlePermissionRequest (some (.str "abc")) ⟨"tc1", "Run tests", [], []⟩).id,
           "allow_once"⟩⟩
      = .ok (acpConnectedInit, [.permissionResult ⟨"2.0", .str "abc", "allow_once", "selected"⟩]) :=
  ⟨acp_permission_id_roundtrip (.num 42) _ _ _ rfl (Or.inl rfl),
   acp_permission_id_roundtrip (.str "abc") _ _ _ rfl (Or.inr rfl)⟩

/-!
## Claim C2 — protocol auto-selection
-/

/-- C2.  The code contradicts the claim's success half: `tryACP` installs
the current `m.callback` on the probing adapter *before* creating the
interception closure, and the closure is assigned only to the `m.callback`
field, never to the adapter.  Since the closure is freshly allocated
inside `tryACP`, the previously held callback is never it, so no inbound
status message can signal `initialized`: the probe always times out and
`Manager.Connect` reports "pty" even when the agent answers `initialize`
and `session/new` within the 3-second window. -/
theorem acp_probe_never_reports_acp (mcb : CallbackVal) (spawnOk statusWithin3s : Bool)
    (h : mcb = .noCb ∨ mcb = .userCb) :
    signalsInitialized (tryACPWiring mcb).adapterCb = false ∧
    managerConnectProtocol mcb spawnOk statusWithin3s = "pty" := by
  rcases h with h | h <;> subst h <;>
    simp [managerConnectProtocol, tryACPWiring, signalsInitialized]

/-- Witness for C2: a user callback is installed and the agent does emit a
status within 3 s (the spec's "emulator that replies in time"), yet the
manager reports "pty". -/
theorem acp_probe_never_reports_acp_witness :
    signalsInitialized (tryACPWiring .userCb).adapterCb = false ∧
    managerConnectProtocol .userCb true true = "pty" :=
  acp_probe_never_reports_acp .userCb true true (Or.inr rfl)

/-!
## Claim C9 — SendMessage after disconnect
-/

/-- C9, counterexample to the claim as stated: a fresh PTY adapter
(`connected = false`, `ptmx = nil`) reports `IsConnected() = false`, yet
`SendMessage` of a content message takes the `ptmx == nil` branch and
returns `nil` (`retNil`), not a non-nil error. -/
theorem pty_send_disconnected_returns_nil :
    ptyIsConnected ⟨false, true⟩ = false ∧
    ptySendMessage ⟨false, true⟩ ⟨.content, .str "hi"⟩ = .retNil := by
  constructor
  · rfl
  · rfl

/-- C9, amended: the ACP adapter's `SendMessage` returns the error
`"not connected"` whenever the connected flag is down; the PTY adapter's
`SendMessage` performs no connectivity check at all and silently returns
`nil` whenever the message is not a string content message or the PTY
handle is nil — in particular always on an adapter that was never
connected. -/
theorem send_after_disconnect_amended :
    (∀ (st : ACPState) (msg : ProtocolMessage), st.connected = false →
        acpSendMessage st msg = .error "not connected") ∧
    (∀ (st : PTYState) (msg : ProtocolMessage), st.ptmxNil = true →
        ptySendMessage st msg = .retNil) := by
  constructor
  · intro st msg h
    simp [acpSendMessage, h]
  · intro st msg h
    unfold ptySendMessage
    split
    · rfl
    · cases msg.content <;> simp [h]

/-- Witness for the amended C9. -/
theorem send_after_disconnect_amended_witness :
    acpSendMessage ⟨false, "", 0, 0, 0⟩ ⟨.content, .str "hi"⟩ = .error "not connected" ∧
    ptySendMessage ⟨false, true⟩ ⟨.cancel, .str "stop"⟩ = .retNil :=
  ⟨send_after_disconnect_amended.1 _ _ rfl, send_after_disconnect_amended.2 _ _ rfl⟩

/-!
## Claim C10 — terminal/release never fails
-/

/-- C10.  Every `terminal/release` with well-formed params is answered
with the successful empty JSON-RPC result — for any machine state, in
particular when the terminal id was never created or was already released
or garbage-collected — never with the `-32602` error, and the state stored
under the id (if any) is removed. -/
theorem terminal_release_always_succeeds (m : TermMachine) (reqId : JsonVal) (t : String) :
    termStep m (.release reqId t)
      = ({ m with terminals := delTerm m.terminals t }, [.emptyResult reqId]) ∧
    (termStep m (.release reqId t)).1.terminals.lookup t = none := by
  refine ⟨rfl, ?_⟩
  simpa [termStep, delTerm] using lookup_filter_ne_none m.terminals t

/-!
## Claim C8 — session-index invariant
-/

/-- Every record in the index is active, preserved by each operation. -/
theorem sessStep_active (m : List (String × SessionRec)) (op : SessOp)
    (h : ∀ p ∈ m, (Prod.snd p).status = "active") :
    ∀ p ∈ sessStep m op, (Prod.snd p).status = "active" := by
  cases op with
  | create id cliType workDir pm ok =>
    cases ok with
    | false => exact h
    | true =>
      intro p hp
      rcases List.mem_cons.mp hp with hp | hp
      · subst hp; rfl
      · exact h p (List.mem_of_mem_filter hp)
  | stop id =>
    intro p hp
    exact h p (List.mem_of_mem_filter hp)
  | stopAll =>
    intro p hp
    simp [sessStep] at hp

/-- The invariant holds on every state reachable from the fresh manager. -/
theorem sessRun_active (ops : List SessOp) :
    ∀ p ∈ sessRun ops, (Prod.snd p).status = "active" := by
  suffices h : ∀ m, (∀ p ∈ m, (Prod.snd p).status = "active") →
      ∀ p ∈ ops.foldl sessStep m, (Prod.snd p).status = "active" by
    exact h [] (by intro p hp; simp at hp)
  induction ops with
  | nil => intro m hm; exact hm
  | cons op rest ih =>
    intro m hm
    exact ih (sessStep m op) (sessStep_active m op hm)

/-- C8.  Session-index invariant: every session reachable through the
manager's id index after any sequence of create/stop/stopAll operations
has status `"active"`; `Create` inserts only active sessions and `Stop`
removes the entry in the same critical section in which it marks the
record completed, so no completed or errored session is ever reachable by
id. -/
theorem session_index_only_active (ops : List SessOp) (id : String) (s : SessionRec)
    (h : sessGet (sessRun ops) id = some s) : s.status = "active" :=
  sessRun_active ops (id, s) (lookup_mem_pair _ _ _ h)

/-- Witness for C8: create one session, look it up, conclude it is
active. -/
theorem session_index_only_active_witness :
    (⟨"s1", "claude", "/tmp", "default", "active"⟩ : SessionRec).status = "active" :=
  session_index_only_active [.create "s1" "claude" "/tmp" "" true] "s1" _ rfl

/-!
## Claim C7 — end-of-turn accounting
-/

/-- `handleSessionUpdate` never changes the connected flag. -/
theorem handleUpdate_connected (st : ACPState) (u : SessionUpdateObj) :
    (acpHandleSessionUpdate st u).1.connected = st.connected := by
  unfold acpHandleSessionUpdate
  split_ifs <;> first
    | rfl
    | (cases u.contentText <;> rfl)

/-- `handleSessionUpdate` never changes the input-token counter. -/
theorem handleUpdate_input (st : ACPState) (u : SessionUpdateObj) :
    (acpHandleSessionUpdate st u).1.inputTokens = st.inputTokens := by
  unfold acpHandleSessionUpdate
  split_ifs <;> first
    | rfl
    | (cases u.contentText <;> rfl)

/-- `handleSessionUpdate` adds exactly the chunk contribution to the
output-token counter. -/
theorem handleUpdate_output (st : ACPState) (u : SessionUpdateObj) :
    (acpHandleSessionUpdate st u).1.outputTokens =
      st.outputTokens + chunkContribution u := by
  unfold acpHandleSessionUpdate
  by_cases h1 : u.sessionUpdate = "agent_message_chunk"
  · rw [if_pos h1]
    have hch : isChunkUpdate u = true := by simp [isChunkUpdate, h1]
    cases hct : u.contentText with
    | none => simp [chunkContribution, hch, hct]
    | some t => simp [chunkContribution, hch, hct]
  · rw [if_neg h1]
    by_cases h2 : u.sessionUpdate = "agent_thought_chunk"
    · rw [if_pos h2]
      have hch : isChunkUpdate u = true := by simp [isChunkUpdate, h2]
      cases hct : u.contentText with
      | none => simp [chunkContribution, hch, hct]
      | some t => simp [chunkContribution, hch, hct]
    · rw [if_neg h2]
      have hch : isChunkUpdate u = false := by simp [isChunkUpdate, h1, h2]
      split_ifs <;> simp [chunkContribution, hch]

/-- Unfolding equation: a prompt event contributes to the input sum. -/
theorem promptTokens_cons_prompt (t : String) (es : List ACPEvent) :
    promptTokens (.promptSent t :: es) = estimateTokens t + promptTokens es := rfl

/-- Unfolding equation: an update event does not touch the input sum. -/
theorem promptTokens_cons_update (u : SessionUpdateObj) (es : List ACPEvent) :
    promptTokens (.updateReceived u :: es) = promptTokens es := rfl

/-- Unfolding equation: other inbound traffic does not touch the input sum. -/
theorem promptTokens_cons_other (es : List ACPEvent) :
    promptTokens (.otherInbound :: es) = promptTokens es := rfl

/-- Unfolding equation: an update event contributes to the output sum. -/
theorem chunkTokens_cons_update (u : SessionUpdateObj) (es : List ACPEvent) :
    chunkTokens (.updateReceived u :: es) = chunkContribution u + chunkTokens es := rfl

/-- Unfolding equation: a prompt event does not touch the output sum. -/
theorem chunkTokens_cons_prompt (t : String) (es : List ACPEvent) :
    chunkTokens (.promptSent t :: es) = chunkTokens es := rfl

/-- Unfolding equation: other inbound traffic does not touch the output sum. -/
theorem chunkTokens_cons_other (es : List ACPEvent) :
    chunkTokens (.otherInbound :: es) = chunkTokens es := rfl

/-- Counter bookkeeping over a trace: starting connected, the adapter
stays connected, the input counter accumulates the prompt estimates and
the output counter the chunk estimates. -/
theorem acpRun_counters (events : List ACPEvent) :
    ∀ st : ACPState, st.connected = true →
      (acpRun st events).connected = true ∧
      (acpRun st events).inputTokens = st.inputTokens + promptTokens events ∧
      (acpRun st events).outputTokens = st.outputTokens + chunkTokens events := by
  induction events with
  | nil =>
    intro st h
    simp [acpRun, promptTokens, chunkTokens, h]
  | cons e es ih =>
    intro st h
    have hstep : acpRun st (e :: es) = acpRun (acpStep st e) es := rfl
    rw [hstep]
    cases e with
    | promptSent t =>
      have hs : acpStep st (.promptSent t) =
          { st with inputTokens := st.inputTokens + estimateTokens t
                    requestId := st.requestId + 1 } := by
        simp [acpStep, acpSendMessage, h]
      rw [hs]
      obtain ⟨h1, h2, h3⟩ := ih { st with
          inputTokens := st.inputTokens + estimateTokens t
          requestId := st.requestId + 1 } h
      refine ⟨h1, ?_, ?_⟩
      · rw [h2, promptTokens_cons_prompt]
        show st.inputTokens + estimateTokens t + promptTokens es
            = st.inputTokens + (estimateTokens t + promptTokens es)
        omega
      · rw [h3, chunkTokens_cons_prompt]
    | updateReceived u =>
      have hstep2 : acpStep st (.updateReceived u) = (acpHandleSessionUpdate st u).1 := rfl
      have hsc := handleUpdate_connected st u
      have hsi := handleUpdate_input st u
      have hso := handleUpdate_output st u
      obtain ⟨h1, h2, h3⟩ := ih (acpHandleSessionUpdate st u).1 (by rw [hsc]; exact h)
      rw [hstep2]
      refine ⟨h1, ?_, ?_⟩
      · rw [h2, hsi, promptTokens_cons_update]
      · rw [h3, hso, chunkTokens_cons_update]
        omega
    | otherInbound =>
      obtain ⟨h1, h2, h3⟩ := ih st h
      exact ⟨h1, by rw [promptTokens_cons_other]; exact h2,
             by rw [chunkTokens_cons_other]; exact h3⟩

/-- C7.  End-of-turn accounting: after any trace of prompts and inbound
updates on a freshly connected adapter, an `end_turn` update makes
`handleSessionUpdate` emit exactly two messages in order — `status=idle`,
then a usage snapshot whose input tokens are the sum of `ceil(len/4)` over
all prompt texts sent so far, whose output tokens are the sum over all
message/thought chunk texts received so far, and whose context size is
their sum. -/
theorem end_turn_emits_idle_then_usage (events : List ACPEvent) (u : SessionUpdateObj)
    (hu : u.sessionUpdate = "end_turn") :
    acpHandleSessionUpdate (acpRun acpConnectedInit events) u
      = (acpRun acpConnectedInit events,
         [⟨.status, .statusVal "idle"⟩,
          ⟨.usage, .usageVal ⟨promptTokens events, chunkTokens events, 0, 0,
              promptTokens events + chunkTokens events⟩⟩]) := by
  obtain ⟨hc, hin, hout⟩ := acpRun_counters events acpConnectedInit rfl
  have h0in : (acpRun acpConnectedInit events).inputTokens = promptTokens events := by
    simpa [acpConnectedInit] using hin
  have h0out : (acpRun acpConnectedInit events).outputTokens = chunkTokens events := by
    simpa [acpConnectedInit] using hout
  unfold acpHandleSessionUpdate
  rw [hu]
  rw [if_neg (by decide), if_neg (by decide), if_neg (by decide), if_neg (by decide),
      if_pos rfl]
  rw [h0in, h0out]

/-- Witness for C7: the spec's S2 scenario — prompt "hi" (1 token), chunk
"hello" (2 tokens), then `end_turn` emits idle followed by usage
`⟨1, 2, 0, 0, 3⟩`. -/
theorem end_turn_emits_idle_then_usage_witness :
    acpHandleSessionUpdate
        (acpRun acpConnectedInit
          [.promptSent "hi",
           .updateReceived ⟨"agent_message_chunk", some "hello", "", "", "", "", "", none⟩])
        ⟨"end_turn", none, "", "", "", "", "", none⟩
      = (acpRun acpConnectedInit
          [.promptSent "hi",
           .updateReceived ⟨"agent_message_chunk", some "hello", "", "", "", "", "", none⟩],
         [⟨.status, .statusVal "idle"⟩,
          ⟨.usage, .usageVal ⟨1, 2, 0, 0, 3⟩⟩]) :=
  (end_turn_emits_idle_then_usage
      [.promptSent "hi",
       .updateReceived ⟨"agent_message_chunk", some "hello", "", "", "", "", "", none⟩]
      ⟨"end_turn", none, "", "", "", "", "", none⟩ rfl).trans (by decide)

/-!
## Claim C4 — rule evaluation semantics
-/

/-- When a pattern contains no `**`, the `**`→`*` normalization is the
identity. -/
theorem replaceDoubleStar_eq_self (l : List Char)
    (h : listHasSub l ['*', '*'] = false) : replaceDoubleStar l = l := by
  induction l with
  | nil => rfl
  | cons c t ih =>
    have hsplit : (['*', '*'].isPrefixOf (c :: t) || listHasSub t ['*', '*']) = false := by
      unfold listHasSub at h
      exact h
    have hsub : listHasSub t ['*', '*'] = false := (Bool.or_eq_false_iff.mp hsplit).2
    have hnp : ['*', '*'].isPrefixOf (c :: t) = false := (Bool.or_eq_false_iff.mp hsplit).1
    cases t with
    | nil => rfl
    | cons d t' =>
      by_cases hcd : c = '*' ∧ d = '*'
      · exfalso
        rw [hcd.1, hcd.2] at hnp
        simp [List.isPrefixOf] at hnp
      · have e : replaceDoubleStar (c :: d :: t') =
            if c = '*' && d = '*' then '*' :: replaceDoubleStar t'
            else c :: replaceDoubleStar (d :: t') := rfl
        have hcond : ¬((c = '*' && d = '*') = true) := by
          rcases not_and_or.mp hcd with hx | hx <;> simp [hx]
        rw [e, if_neg hcond, ih hsub]

/-- A non-empty string has a non-empty character list. -/
theorem toList_ne_nil_of_ne_empty (s : String) (h : s ≠ "") : s.toList ≠ [] := by
  intro hnil
  apply h
  cases s with
  | mk data =>
    cases data with
    | nil => rfl
    | cons c cs => simp [String.toList] at hnil

/-- The empty command contains no non-empty pattern. -/
theorem strContains_empty_false (pat : String) (h : pat ≠ "") :
    strContains "" pat = false := by
  unfold strContains listHasSub
  have : pat.toList.isPrefixOf ([] : List Char) = false := by
    cases hp : pat.toList with
    | nil => exact absurd hp (toList_ne_nil_of_ne_empty pat h)
    | cons c cs => rfl
  simpa [this]

/-- The empty command has no non-empty pattern as prefix. -/
theorem strStartsWith_empty_false (pat : String) (h : pat ≠ "") :
    strStartsWith "" pat = false := by
  unfold strStartsWith
  cases hp : pat.toList with
  | nil => exact absurd hp (toList_ne_nil_of_ne_empty pat h)
  | cons c cs => rfl

/-- `matchRule` agrees with the claim's reading of it whenever the path is
non-empty for `fs_`-prefixed tools; the difference is exactly the `path
!= ""` (and immaterial `command != ""`) guard of the source. -/
theorem matchRule_eq_claim (rule : AutoApprovalRule) (tool path command : String)
    (hfs : strStartsWith tool "fs_" = true → path ≠ "") :
    matchRule rule tool path command = claimMatchRule rule tool path command := by
  unfold matchRule claimMatchRule
  split_ifs with h1 h2
  · rfl
  · rfl
  · have hpat : rule.pattern ≠ "" ∧ rule.pattern ≠ "*" := by
      constructor
      · intro hp; exact h2 (by simp [hp])
      · intro hp; exact h2 (by simp [hp])
    have e1 : (strStartsWith tool "fs_" && decide (path ≠ "") &&
          (goMatch rule.pattern path ||
            (strContains rule.pattern "**" &&
              goMatch (replaceDoubleStarStr rule.pattern) path)))
        = (strStartsWith tool "fs_" &&
          (goMatch rule.pattern path || goMatch (replaceDoubleStarStr rule.pattern) path)) := by
      by_cases hf : strStartsWith tool "fs_" = true
      · have hp : path ≠ "" := hfs hf
        by_cases hcds : strContains rule.pattern "**" = true
        · simp [hf, hp, hcds]
        · have hid : replaceDoubleStarStr rule.pattern = rule.pattern := by
            unfold replaceDoubleStarStr
            rw [replaceDoubleStar_eq_self rule.pattern.toList
                (by simpa [strContains] using (Bool.not_eq_true _).mp hcds)]
            cases rule.pattern with
            | mk data => rfl
          rw [hid]
          simp [hf, hp, hcds, Bool.or_self]
      · have hf' : strStartsWith tool "fs_" = false := (Bool.not_eq_true _).mp hf
        simp [hf']
    have e2 : (decide (tool = "execute_bash") && decide (command ≠ "") &&
          (strContains command rule.pattern || strStartsWith command rule.pattern))
        = (decide (tool = "execute_bash") &&
          (strContains command rule.pattern || strStartsWith command rule.pattern)) := by
      by_cases ht : tool = "execute_bash"
      · by_cases hcmd : command = ""
        · subst hcmd
          rw [strContains_empty_false rule.pattern hpat.1,
              strStartsWith_empty_false rule.pattern hpat.1]
          simp
        · simp [hcmd]
      · simp [ht]
    rw [e1, e2]

/-- C4, amended: `Engine.Evaluate` inspects the rules in list order and
returns the action and id of the first matching rule, or `("ask", "")`
when none matches, with the matching semantics the claim describes —
provided the extracted path is non-empty whenever the tool is
`fs_`-prefixed.  (With an empty path the source skips glob matching
entirely, so only the wildcard tool/pattern cases match; the non-empty
command guard of the `execute_bash` branch is immaterial because only the
pre-handled wildcard pattern matches an empty command.) -/
theorem rules_eval_eq_claim (rules : List AutoApprovalRule) (tool path command : String)
    (hfs : strStartsWith tool "fs_" = true → path ≠ "") :
    evaluateRules rules tool path command = claimEvaluateRules rules tool path command := by
  induction rules with
  | nil => rfl
  | cons r rest ih =>
    unfold evaluateRules claimEvaluateRules
    rw [matchRule_eq_claim r tool path command hfs]
    by_cases h : claimMatchRule r tool path command = true
    · rw [if_pos h, if_pos h]
    · rw [if_neg h, if_neg h]
      exact ih

/-- Witness for the amended C4: the spec's precedence example — the
`fs_write /tmp/**` auto-approve rule matches `/tmp/x.log` first. -/
theorem rules_eval_eq_claim_witness :
    evaluateRules [⟨"r1", "/tmp/**", "fs_write", "auto-approve"⟩, ⟨"r2", "*", "*", "ask"⟩]
        "fs_write" "/tmp/x.log" ""
      = claimEvaluateRules [⟨"r1", "/tmp/**", "fs_write", "auto-approve"⟩, ⟨"r2", "*", "*", "ask"⟩]
        "fs_write" "/tmp/x.log" "" ∧
    evaluateRules [⟨"r1", "/tmp/**", "fs_write", "auto-approve"⟩, ⟨"r2", "*", "*", "ask"⟩]
        "fs_write" "/tmp/x.log" ""
      = ("auto-approve", "r1") :=
  ⟨rules_eval_eq_claim _ _ _ _ (fun _ => by decide), by decide⟩

/-- C4, counterexample to the claim as stated: with an empty path, the
glob branch is skipped by the `path != ""` guard, so a rule whose pattern
`**` glob-matches the empty path (per `filepath.Match`, a trailing star
matches any separator-free remainder, including the empty one) does not
fire: the claim's semantics yields `("deny", "r1")` while the code yields
`("ask", "")`. -/
theorem rules_eval_empty_path_counterexample :
    goMatch "**" "" = true ∧
    claimEvaluateRules [⟨"r1", "**", "fs_read", "deny"⟩] "fs_read" "" "" = ("deny", "r1") ∧
    evaluateRules [⟨"r1", "**", "fs_read", "deny"⟩] "fs_read" "" "" = ("ask", "") :=
  ⟨by decide, by decide, by decide⟩

/-!
## Claim C5 — CustomEnv unset semantics
-/

/-- If `a ++ "="` is a prefix of `b ++ "=" ++ c` and neither `a` nor `b`
contains `'='`, then `a = b` (the two entries carry the same key). -/
theorem key_eq_of_prefix_aux :
    ∀ (a b c : List Char), '=' ∉ a → '=' ∉ b →
      (a ++ ['=']) <+: (b ++ '=' :: c) → a = b := by
  intro a
  induction a with
  | nil =>
    intro b c _ hb hp
    cases b with
    | nil => rfl
    | cons y b' =>
      exfalso
      simp only [List.nil_append, List.cons_append] at hp
      have h1 := (List.cons_prefix_cons.mp hp).1
      apply hb
      rw [h1]
      exact List.mem_cons_self y b'
  | cons x a' ih =>
    intro b c ha hb hp
    cases b with
    | nil =>
      exfalso
      simp only [List.cons_append, List.nil_append] at hp
      have h1 := (List.cons_prefix_cons.mp hp).1
      apply ha
      rw [h1]
      exact List.mem_cons_self '=' a'
    | cons y b' =>
      simp only [List.cons_append] at hp
      have h1 := List.cons_prefix_cons.mp hp
      have hx : a' = b' :=
        ih b' c (fun hm => ha (List.mem_cons_of_mem x hm))
          (fun hm => hb (List.mem_cons_of_mem y hm)) h1.2
      rw [h1.1, hx]

/-- Entry-level version: an entry `k2=v2` has prefix `k=` only when
`k = k2`, provided neither key contains `'='`. -/
theorem key_eq_of_entry_prefix (k k2 v : String)
    (hk : '=' ∉ k.toList) (hk2 : '=' ∉ k2.toList)
    (h : strStartsWith (envEntry (k2, v)) (k ++ "=") = true) : k = k2 := by
  unfold strStartsWith envEntry at h
  have hpre : (k ++ "=").toList <+: (k2 ++ "=" ++ v).toList :=
    List.isPrefixOf_iff_prefix.mp h
  have e1 : (k ++ "=").toList = k.toList ++ ['='] := by
    rw [show (k ++ "=").toList = k.toList ++ "=".toList from String.data_append k "="]
    rfl
  have e2 : (k2 ++ "=" ++ v).toList = k2.toList ++ '=' :: v.toList := by
    rw [show (k2 ++ "=" ++ v).toList = (k2 ++ "=").toList ++ v.toList from
        String.data_append (k2 ++ "=") v]
    rw [show (k2 ++ "=").toList = k2.toList ++ "=".toList from String.data_append k2 "="]
    simp
  rw [e1, e2] at hpre
  have := key_eq_of_prefix_aux k.toList k2.toList v.toList hk hk2 hpre
  cases k with
  | mk dk =>
    cases k2 with
    | mk dk2 =>
      simpa [String.toList] using congrArg String.mk this

/-- The CustomEnv fold never introduces an entry with prefix `k=` when
every pair keyed `k` has the empty value and keys carry no `'='`. -/
theorem acpFold_no_key (k : String) (hk : '=' ∉ k.toList) :
    ∀ (custom : List (String × String)) (acc : List String),
      (∀ p ∈ custom, (Prod.fst p) = k → (Prod.snd p) = "") →
      (∀ p ∈ custom, '=' ∉ (Prod.fst p).toList) →
      (∀ e ∈ acc, strStartsWith e (k ++ "=") = false) →
      ∀ e ∈ acpApplyCustomEnv acc custom, strStartsWith e (k ++ "=") = false := by
  intro custom
  induction custom with
  | nil =>
    intro acc _ _ hacc e he
    exact hacc e he
  | cons kv rest ih =>
    intro acc honly hkeys hacc e he
    unfold acpApplyCustomEnv at he
    rw [List.foldl_cons] at he
    by_cases hv : kv.2 = ""
    · rw [if_pos hv] at he
      refine ih _ (fun p hp => honly p (List.mem_cons_of_mem kv hp))
        (fun p hp => hkeys p (List.mem_cons_of_mem kv hp)) ?_ e he
      intro e' he'
      have := List.mem_of_mem_filter he'
      exact hacc e' this
    · rw [if_neg hv] at he
      refine ih _ (fun p hp => honly p (List.mem_cons_of_mem kv hp))
        (fun p hp => hkeys p (List.mem_cons_of_mem kv hp)) ?_ e he
      intro e' he'
      rcases List.mem_append.mp he' with hm | hm
      · exact hacc e' hm
      · have he'' : e' = envEntry kv := by simpa using hm
        subst he''
        by_cases hpre : strStartsWith (envEntry kv) (k ++ "=") = true
        · exfalso
          have hkk : k = kv.1 :=
            key_eq_of_entry_prefix k kv.1 kv.2 hk
              (hkeys kv (List.mem_cons_self kv rest)) hpre
          exact hv (honly kv (List.mem_cons_self kv rest) hkk.symm)
        · exact (Bool.not_eq_true _).mp hpre

/-- C5, amended: building the child environment, the ACP adapter treats
`CustomEnv[k] = ""` as *unset* — the resulting environment slice contains
no `k=`-prefixed entry at all (assuming, as for a Go map, that `k` maps
only to `""` and keys contain no `'='`) — while the PTY adapter instead
appends the literal entry `k=`, leaving the variable present with an
empty value. -/
theorem custom_env_unset_amended (parent : List String)
    (env custom : List (String × String)) (k : String)
    (hmem : (k, "") ∈ custom)
    (honly : ∀ p ∈ custom, (Prod.fst p) = k → (Prod.snd p) = "")
    (hkeys : ∀ p ∈ custom, '=' ∉ (Prod.fst p).toList) :
    (∀ e ∈ acpMergeEnv parent env custom, strStartsWith e (k ++ "=") = false) ∧
    envEntry (k, "") ∈ ptyMergeEnv parent env custom := by
  have hk : '=' ∉ k.toList := hkeys (k, "") hmem
  constructor
  · obtain ⟨pre, post, rfl⟩ := List.append_of_mem hmem
    intro e he
    unfold acpMergeEnv acpApplyCustomEnv at he
    rw [List.foldl_append, List.foldl_cons] at he
    rw [if_pos rfl] at he
    refine acpFold_no_key k hk post _
      (fun p hp => honly p (by simp [hp]))
      (fun p hp => hkeys p (by simp [hp])) ?_ e he
    intro e' he'
    have hmf := List.mem_filter.mp he'
    have := hmf.2
    simpa using this
  · unfold ptyMergeEnv
    exact List.mem_append.mpr (Or.inr (List.mem_map_of_mem envEntry hmem))

/-- Witness for the amended C5: the spec's test — parent `CLAUDECODE=1`,
`CustomEnv = CLAUDECODE↦""`. -/
theorem custom_env_unset_amended_witness :
    (∀ e ∈ acpMergeEnv ["CLAUDECODE=1"] [] [("CLAUDECODE", "")],
        strStartsWith e ("CLAUDECODE" ++ "=") = false) ∧
    envEntry ("CLAUDECODE", "") ∈ ptyMergeEnv ["CLAUDECODE=1"] [] [("CLAUDECODE", "")] :=
  custom_env_unset_amended ["CLAUDECODE=1"] [] [("CLAUDECODE", "")] "CLAUDECODE"
    (by decide) (by decide) (by decide)

/-- C5, counterexample to the claim as stated: the PTY adapter does not
remove the variable — with parent entry `CLAUDECODE=1` and
`CustomEnv["CLAUDECODE"] = ""`, the child environment slice it builds is
`["CLAUDECODE=1", "CLAUDECODE="]`: the key is still present (the parent
entry survives and an empty-valued entry is appended), contradicting the
claim that the child's environment contains no `CLAUDECODE` key for both
adapters. -/
theorem pty_custom_env_not_unset :
    ptyMergeEnv ["CLAUDECODE=1"] [] [("CLAUDECODE", "")]
      = ["CLAUDECODE=1", "CLAUDECODE="] ∧
    (∃ e ∈ ptyMergeEnv ["CLAUDECODE=1"] [] [("CLAUDECODE", "")],
        strStartsWith e ("CLAUDECODE" ++ "=") = true) := by
  constructor
  · rfl
  · exact ⟨"CLAUDECODE=1", by decide, by decide⟩

/-!
## Claim C3 — rule-engine short-circuit in the bridge router
-/

/-- C3, amended: the rules are evaluated — with the claimed short-circuit
behavior — only for permission requests that arrive through the local
permission handler (`Submit` → the bridge's `OnRequest` callback): there
`auto-approve`/`deny` resolve immediately and send no frame, while `ask`
or no match forwards a `permission:request` frame with the pending entry
registered.  Permission messages surfaced by the ACP adapter through the
session output callback are forwarded to the WebSocket unconditionally,
with no rule evaluation and no pending entry in that path. -/
theorem permission_shortcircuit_amended :
    (∀ (rules : List AutoApprovalRule) (pending : List String) (req : PermRequest),
      ((evaluateRules rules req.permissionType (lookupStr req.detail "path")
            (lookupStr req.detail "command")).1 = "auto-approve" →
        handlerSubmit rules pending req
          = (removePending (insertPending pending req.id) req.id,
             [.resolve ⟨req.id, true⟩]) ∧
        req.id ∉ (handlerSubmit rules pending req).1) ∧
      ((evaluateRules rules req.permissionType (lookupStr req.detail "path")
            (lookupStr req.detail "command")).1 = "deny" →
        handlerSubmit rules pending req
          = (removePending (insertPending pending req.id) req.id,
             [.resolve ⟨req.id, false⟩]) ∧
        req.id ∉ (handlerSubmit rules pending req).1) ∧
      ((evaluateRules rules req.permissionType (lookupStr req.detail "path")
            (lookupStr req.detail "command")).1 ≠ "auto-approve" →
       (evaluateRules rules req.permissionType (lookupStr req.detail "path")
            (lookupStr req.detail "command")).1 ≠ "deny" →
        handlerSubmit rules pending req
          = (insertPending pending req.id, [.sendFrame "permission:request"]) ∧
        req.id ∈ (handlerSubmit rules pending req).1)) ∧
    (∀ (protocolName : String) (msg : ProtocolMessage), msg.type = .permission →
      bridgeOutputFrames protocolName msg = ["permission:request"]) := by
  constructor
  · intro rules pending req
    refine ⟨?_, ?_, ?_⟩
    · intro ha
      have heff : bridgeOnRequest rules req = [.resolve ⟨req.id, true⟩] := by
        unfold bridgeOnRequest
        rw [if_pos ha]
      have hres : handlerSubmit rules pending req
          = (removePending (insertPending pending req.id) req.id,
             [.resolve ⟨req.id, true⟩]) := by
        unfold handlerSubmit
        rw [heff]
        simp
      refine ⟨hres, ?_⟩
      rw [hres]
      simp [removePending, List.mem_filter]
    · intro hd
      have hna : (evaluateRules rules req.permissionType (lookupStr req.detail "path")
          (lookupStr req.detail "command")).1 ≠ "auto-approve" := by
        rw [hd]; decide
      have heff : bridgeOnRequest rules req = [.resolve ⟨req.id, false⟩] := by
        unfold bridgeOnRequest
        rw [if_neg hna, if_pos hd]
      have hres : handlerSubmit rules pending req
          = (removePending (insertPending pending req.id) req.id,
             [.resolve ⟨req.id, false⟩]) := by
        unfold handlerSubmit
        rw [heff]
        simp
      refine ⟨hres, ?_⟩
      rw [hres]
      simp [removePending, List.mem_filter]
    · intro hna hnd
      have heff : bridgeOnRequest rules req = [.sendFrame "permission:request"] := by
        unfold bridgeOnRequest
        rw [if_neg hna, if_neg hnd]
      have hres : handlerSubmit rules pending req
          = (insertPending pending req.id, [.sendFrame "permission:request"]) := by
        unfold handlerSubmit
        rw [heff]
        simp
      refine ⟨hres, ?_⟩
      rw [hres]
      unfold insertPending
      by_cases hmem : req.id ∈ pending
      · rw [if_pos hmem]; exact hmem
      · rw [if_neg hmem]; exact List.mem_cons_self _ _
  · intro protocolName msg hty
    unfold bridgeOutputFrames
    rw [hty]

/-- Witness for the amended C3: the spec's `/tmp/**` auto-approve rule
resolves a handler-path `fs_write /tmp/x.log` request without any frame,
and an ACP-path permission message is forwarded as a frame. -/
theorem permission_shortcircuit_amended_witness :
    handlerSubmit [⟨"r1", "/tmp/**", "fs_write", "auto-approve"⟩] []
        ⟨"p1", "s1", "d1", "fs_write", "Write /tmp/x.log",
         [("path", JsonVal.str "/tmp/x.log")], "medium", 60⟩
      = ([], [.resolve ⟨"p1", true⟩]) ∧
    bridgeOutputFrames "acp"
        ⟨.permission, .permRequest
          ⟨.num 7, "fs_write", [("path", JsonVal.str "/tmp/x.log")],
           "Write /tmp/x.log", "medium", ["allow_once"]⟩⟩
      = ["permission:request"] :=
  ⟨(((permission_shortcircuit_amended.1 [⟨"r1", "/tmp/**", "fs_write", "auto-approve"⟩] []
        ⟨"p1", "s1", "d1", "fs_write", "Write /tmp/x.log",
         [("path", JsonVal.str "/tmp/x.log")], "medium", 60⟩).1 (by decide)).1).trans
      (by decide),
   permission_shortcircuit_amended.2 "acp" _ rfl⟩

/-- C3, counterexample to the claim as stated: a permission request whose
first matching rule is an `fs_write /tmp/**` auto-approve rule — the rule
engine would return `auto-approve` for it — still produces a
`permission:request` WebSocket frame when it arrives as an ACP adapter
permission message, because the session output callback forwards
permission messages without consulting the rules. -/
theorem acp_permission_bypasses_rules :
    evaluateRules [⟨"r1", "/tmp/**", "fs_write", "auto-approve"⟩] "fs_write"
        (lookupStr [("path", JsonVal.str "/tmp/x.log")] "path") ""
      = ("auto-approve", "r1") ∧
    bridgeOutputFrames "acp"
        ⟨.permission, .permRequest
          ⟨.num 7, "fs_write", [("path", JsonVal.str "/tmp/x.log")],
           "Write /tmp/x.log", "medium", ["allow_once"]⟩⟩
      = ["permission:request"] :=
  ⟨by decide, rfl⟩

/-!
## Claim C6 — terminal ordering
-/

/-- An association-list lookup fails exactly when no pair carries the
key. -/
theorem lookup_eq_none_iff_keys {β : Type} (m : List (String × β)) (k : String) :
    m.lookup k = none ↔ ∀ p ∈ m, (Prod.fst p) ≠ k := by
  induction m with
  | nil => simp [List.lookup]
  | cons hd tl ih =>
    rw [show hd = (hd.1, hd.2) from rfl, List.lookup_cons]
    by_cases h : k = hd.1
    · have hbeq : (k == hd.1) = true := beq_iff_eq.mpr h
      rw [hbeq]
      constructor
      · intro hx; cases hx
      · intro hall
        exact absurd h.symm (hall (hd.1, hd.2) (List.mem_cons_self _ _))
    · have hbeq : (k == hd.1) = false := beq_false_of_ne h
      rw [hbeq]
      constructor
      · intro hx p hp
        rcases List.mem_cons.mp hp with rfl | hp'
        · exact fun he => h he.symm
        · exact (ih.mp hx) p hp'
      · intro hall
        exact ih.mpr (fun p hp => hall p (List.mem_cons_of_mem _ hp))

/-- No step other than a `terminal/create` for `t` can make `t` reachable
in the terminal map. -/
theorem termStep_keeps_none (t : String) (m : TermMachine) (e : TermEvent)
    (h : m.terminals.lookup t = none) (he : isCreateOf t e = false) :
    (termStep m e).1.terminals.lookup t = none := by
  cases e with
  | create rid tOther lim =>
    have ht : tOther ≠ t := by simpa [isCreateOf] using he
    rw [lookup_eq_none_iff_keys] at h ⊢
    intro p hp
    rcases List.mem_cons.mp hp with rfl | hp'
    · exact ht
    · exact h p (List.mem_of_mem_filter hp')
  | complete tOther raw code =>
    cases hl : m.terminals.lookup tOther with
    | none => simpa [termStep, hl] using h
    | some ts =>
      have ht : tOther ≠ t := by
        intro heq
        rw [heq, h] at hl
        cases hl
      simp only [termStep]
      rw [hl]
      rw [lookup_eq_none_iff_keys] at h ⊢
      intro p hp
      rcases List.mem_cons.mp hp with rfl | hp'
      · exact ht
      · exact h p (List.mem_of_mem_filter hp')
  | outputReq rid tOther =>
    cases hl : m.terminals.lookup tOther with
    | none => simpa [termStep, hl] using h
    | some ts =>
      simp only [termStep]
      rw [hl]
      by_cases hd : ts.done = true
      · simpa [hd] using h
      · simpa [hd] using h
  | waitReq rid tOther =>
    cases hl : m.terminals.lookup tOther with
    | none => simpa [termStep, hl] using h
    | some ts =>
      simp only [termStep]
      rw [hl]
      by_cases hd : ts.done = true
      · simpa [hd] using h
      · simpa [hd] using h
  | release rid tOther =>
    rw [lookup_eq_none_iff_keys] at h ⊢
    intro p hp
    exact h p (List.mem_of_mem_filter hp)
  | gcExpire tOther =>
    rw [lookup_eq_none_iff_keys] at h ⊢
    intro p hp
    exact h p (List.mem_of_mem_filter hp)

/-- A released terminal stays unreachable across any events that do not
re-create its id. -/
theorem termRun_keeps_none (t : String) :
    ∀ (evs : List TermEvent) (m : TermMachine),
      m.terminals.lookup t = none →
      (∀ e ∈ evs, isCreateOf t e = false) →
      (termRun m evs).terminals.lookup t = none := by
  intro evs
  induction evs with
  | nil => intro m h _; exact h
  | cons e rest ih =>
    intro m h hall
    have hstep : termRun m (e :: rest) = termRun (termStep m e).1 rest := rfl
    rw [hstep]
    exact ih (termStep m e).1
      (termStep_keeps_none t m e h (hall e (List.mem_cons_self _ _)))
      (fun e' he' => hall e' (List.mem_cons_of_mem _ he'))

/-- C6.  Terminal ordering: `terminal/create` is answered immediately —
before the shell command completes — with the fresh terminal id; a
`terminal/output` issued before completion gets no reply yet and is
answered at completion with the captured output capped at
`outputByteLimit` (default 32000), the truncation flag set exactly when
the cap was exceeded, and the exit code; `terminal/release` removes the
state, so any later `terminal/wait_for_exit` for that id — with no
intervening create for it — is answered with JSON-RPC error `-32602`. -/
theorem terminal_lifecycle_order
    (m0 : TermMachine) (t : String) (rid1 rid2 rid3 rid4 : JsonVal)
    (limit : Option Nat) (raw : List UInt8) (code : Int)
    (s1 s2 s3 s4 s5 : TermMachine × List TermResponse)
    (h1 : s1 = termStep m0 (.create rid1 t limit))
    (h2 : s2 = termStep s1.1 (.outputReq rid2 t))
    (h3 : s3 = termStep s2.1 (.complete t raw code))
    (h4 : s4 = termStep s3.1 (.release rid3 t))
    (h5 : s5 = termStep s4.1 (.waitReq rid4 t))
    (_hfresh : m0.terminals.lookup t = none)
    (hbo : ∀ p ∈ m0.blockedOutput, (Prod.snd p) ≠ t)
    (hbw : ∀ p ∈ m0.blockedWait, (Prod.snd p) ≠ t) :
    s1.2 = [.createResult rid1 t] ∧
    s2.2 = [] ∧
    s3.2 = [.outputResult rid2 (raw.take (limit.getD 32000))
              (decide (raw.length > limit.getD 32000)) code] ∧
    s4.2 = [.emptyResult rid3] ∧
    s4.1.terminals.lookup t = none ∧
    s5.2 = [.rpcError rid4 (-32602) "terminal not found"] ∧
    (∀ evs : List TermEvent, (∀ e ∈ evs, isCreateOf t e = false) →
      (termStep (termRun s4.1 evs) (.waitReq rid4 t)).2
        = [.rpcError rid4 (-32602) "terminal not found"]) := by
  have e1 : s1 = (⟨setTerm m0.terminals t ⟨[], 0, "", false, false, limit.getD 32000⟩,
      m0.blockedOutput, m0.blockedWait⟩, [.createResult rid1 t]) := by
    rw [h1]; rfl
  have hts1 : s1.1.terminals.lookup t
      = some ⟨[], 0, "", false, false, limit.getD 32000⟩ := by
    rw [e1]
    simp [setTerm, List.lookup]
  have e2 : s2 = (⟨s1.1.terminals, s1.1.blockedOutput ++ [(rid2, t)], s1.1.blockedWait⟩, []) := by
    rw [h2]
    simp only [termStep]
    rw [hts1]
    rfl
  have hts2 : s2.1.terminals.lookup t
      = some ⟨[], 0, "", false, false, limit.getD 32000⟩ := by
    rw [e2]
    exact hts1
  have hwFilter : s2.1.blockedWait.filter (fun p => p.2 = t) = [] := by
    rw [e2, e1]
    refine List.filter_eq_nil_iff.mpr ?_
    intro p hp
    simpa using hbw p hp
  have hoFilter : s2.1.blockedOutput.filter (fun p => p.2 = t) = [(rid2, t)] := by
    rw [e2, e1]
    show (m0.blockedOutput ++ [(rid2, t)]).filter (fun p => p.2 = t) = [(rid2, t)]
    rw [List.filter_append]
    rw [List.filter_eq_nil_iff.mpr (fun p hp => by simpa using hbo p hp)]
    simp
  have e3resp : s3.2 = [.outputResult rid2 (raw.take (limit.getD 32000))
      (decide (raw.length > limit.getD 32000)) code] := by
    rw [h3]
    simp only [termStep]
    rw [hts2]
    simp only [hwFilter, hoFilter]
    rfl
  have e3term : s3.1.terminals = setTerm s2.1.terminals t
      ⟨raw.take (limit.getD 32000), code, "",
       decide (raw.length > limit.getD 32000), true, limit.getD 32000⟩ := by
    rw [h3]
    simp only [termStep]
    rw [hts2]
  have e4resp : s4.2 = [.emptyResult rid3] := by
    rw [h4]; rfl
  have e4term : s4.1.terminals = delTerm s3.1.terminals t := by
    rw [h4]; rfl
  have hnone4 : s4.1.terminals.lookup t = none := by
    rw [e4term]
    exact lookup_filter_ne_none s3.1.terminals t
  have e5resp : s5.2 = [.rpcError rid4 (-32602) "terminal not found"] := by
    rw [h5]
    simp only [termStep]
    rw [hnone4]
  refine ⟨by rw [e1], by rw [e2], e3resp, e4resp, hnone4, e5resp, ?_⟩
  intro evs hall
  have hn : (termRun s4.1 evs).terminals.lookup t = none :=
    termRun_keeps_none t evs s4.1 hnone4 hall
  simp only [termStep]
  rw [hn]

/-- Witness for C6: the spec's S4-style scenario — `echo hi`, no explicit
limit (so 32000), output `hi\n` (3 bytes, not truncated), exit code 0. -/
theorem terminal_lifecycle_order_witness :
    (termStep ⟨[], [], []⟩ (.create (.num 10) "term_1" none)).2
      = [.createResult (.num 10) "term_1"] ∧
    (termStep (termStep ⟨[], [], []⟩ (.create (.num 10) "term_1" none)).1
        (.outputReq (.num 11) "term_1")).2 = [] ∧
    (termStep (termStep (termStep ⟨[], [], []⟩ (.create (.num 10) "term_1" none)).1
        (.outputReq (.num 11) "term_1")).1
        (.complete "term_1" [104, 105, 10] 0)).2
      = [.outputResult (.num 11) (([104, 105, 10] : List UInt8).take ((none : Option Nat).getD 32000))
          (decide (([104, 105, 10] : List UInt8).length > (none : Option Nat).getD 32000)) 0] ∧
    (termStep (termStep (termStep (termStep ⟨[], [], []⟩ (.create (.num 10) "term_1" none)).1
        (.outputReq (.num 11) "term_1")).1
        (.complete "term_1" [104, 105, 10] 0)).1
        (.release (.num 12) "term_1")).2 = [.emptyResult (.num 12)] ∧
    (termStep (termStep (termStep (termStep ⟨[], [], []⟩ (.create (.num 10) "term_1" none)).1
        (.outputReq (.num 11) "term_1")).1
        (.complete "term_1" [104, 105, 10] 0)).1
        (.release (.num 12) "term_1")).1.terminals.lookup "term_1" = none ∧
    (termStep (termStep (termStep (termStep (termStep ⟨[], [], []⟩
        (.create (.num 10) "term_1" none)).1
        (.outputReq (.num 11) "term_1")).1
        (.complete "term_1" [104, 105, 10] 0)).1
        (.release (.num 12) "term_1")).1
        (.waitReq (.num 13) "term_1")).2
      = [.rpcError (.num 13) (-32602) "terminal not found"] := by
  have h := terminal_lifecycle_order ⟨[], [], []⟩ "term_1" (.num 10) (.num 11) (.num 12)
    (.num 13) none [104, 105, 10] 0 _ _ _ _ _ rfl rfl rfl rfl rfl rfl
    (by intro p hp; cases hp) (by intro p hp; cases hp)
  exact ⟨h.1, h.2.1, h.2.2.1, h.2.2.2.1, h.2.2.2.2.1, h.2.2.2.2.2.1⟩

end OpenAgents
